import Mathlib

/-!
Shallow embedding of the KTEX/DsTex codec (src/ds_tex.rs, src/image_util.rs,
src/binary_data.rs) together with theorems settling the frozen claims about it.

Machine integers are modelled as `Nat`; where the Rust code works in a fixed
width and can overflow (the `u16` pitch arithmetic of `Mipmap::compress`) the
wrap is written explicitly as `% 65536` (release-mode wrapping semantics).
Fallible Rust code (`anyhow::Result`) is modelled with `Option`/`Except`; a
Rust `panic!`/`assert!`/out-of-bounds index is modelled as a distinguished
outcome, kept apart from returned errors.
-/

namespace KTex

/-- Platform enumerants, src/ds_tex.rs lines 19-27 (`#[repr(u32)]`). -/
inductive Platform
  | Default
  | Pc
  | Ps3
  | Xbox360
deriving DecidableEq

/-- Discriminant values of `Platform` (`Default = 0, Pc = 12, Ps3 = 10, Xbox360 = 11`). -/
def Platform.toNat : Platform → Nat
  | .Default => 0
  | .Pc => 12
  | .Ps3 => 10
  | .Xbox360 => 11

/-- `Platform::try_from` via `TryFromPrimitive`: succeeds exactly on the declared discriminants. -/
def Platform.tryFrom (n : Nat) : Option Platform :=
  if n = 0 then some .Default
  else if n = 12 then some .Pc
  else if n = 10 then some .Ps3
  else if n = 11 then some .Xbox360
  else none

/-- PixelFormat enumerants, src/ds_tex.rs lines 29-39. -/
inductive PixelFormat
  | Dxt1
  | Dxt3
  | Dxt5
  | Rgba
  | Rgb
  | Unknown
deriving DecidableEq

/-- Discriminant values of `PixelFormat` (`Dxt1 = 0, Dxt3 = 1, Dxt5 = 2, Rgba = 4, Rgb = 5, Unknown = 7`). -/
def PixelFormat.toNat : PixelFormat → Nat
  | .Dxt1 => 0
  | .Dxt3 => 1
  | .Dxt5 => 2
  | .Rgba => 4
  | .Rgb => 5
  | .Unknown => 7

/-- `PixelFormat::try_from` via `TryFromPrimitive`. -/
def PixelFormat.tryFrom (n : Nat) : Option PixelFormat :=
  if n = 0 then some .Dxt1
  else if n = 1 then some .Dxt3
  else if n = 2 then some .Dxt5
  else if n = 4 then some .Rgba
  else if n = 5 then some .Rgb
  else if n = 7 then some .Unknown
  else none

/-- TextureType enumerants, src/ds_tex.rs lines 41-49. -/
inductive TextureType
  | OneD
  | TwoD
  | ThreeD
  | CubeMapped
deriving DecidableEq

/-- Discriminant values of `TextureType` (`OneD = 0, TwoD = 1, ThreeD = 2, CubeMapped = 3`). -/
def TextureType.toNat : TextureType → Nat
  | .OneD => 0
  | .TwoD => 1
  | .ThreeD => 2
  | .CubeMapped => 3

/-- `TextureType::try_from` via `TryFromPrimitive`. -/
def TextureType.tryFrom (n : Nat) : Option TextureType :=
  if n = 0 then some .OneD
  else if n = 1 then some .TwoD
  else if n = 2 then some .ThreeD
  else if n = 3 then some .CubeMapped
  else none

/-- `Specification`, src/ds_tex.rs lines 51-65: field maxima (mask values) and bit offsets. -/
structure Specification where
  max_platform : Nat
  max_pixel_format : Nat
  max_texture_type : Nat
  max_mipmap_count : Nat
  max_flag : Nat
  max_fill : Nat
  offset_platform : Nat
  offset_pixel_format : Nat
  offset_texture_type : Nat
  offset_mipmap_count : Nat
  offset_flag : Nat
  offset_fill : Nat
deriving DecidableEq

/-- `PRE_CAVE_SPECIFICATION`, src/ds_tex.rs lines 67-80. -/
def PRE_CAVE_SPECIFICATION : Specification where
  max_platform := 7
  max_pixel_format := 7
  max_texture_type := 7
  max_mipmap_count := 15
  max_flag := 1
  max_fill := 262143
  offset_platform := 0
  offset_pixel_format := 3
  offset_texture_type := 6
  offset_mipmap_count := 9
  offset_flag := 13
  offset_fill := 14

/-- `POST_CAVE_SPECIFICATION`, src/ds_tex.rs lines 82-95. -/
def POST_CAVE_SPECIFICATION : Specification where
  max_platform := 15
  max_pixel_format := 31
  max_texture_type := 15
  max_mipmap_count := 31
  max_flag := 3
  max_fill := 4095
  offset_platform := 0
  offset_pixel_format := 4
  offset_texture_type := 9
  offset_mipmap_count := 13
  offset_flag := 18
  offset_fill := 20

/-- `DsTexHeader`, src/ds_tex.rs lines 97-107. -/
structure DsTexHeader where
  mipmap_count : Nat
  specification : Specification
  platform : Platform
  pixel_format : PixelFormat
  texture_type : TextureType
  flag : Nat
  fill : Nat
  premultiply_alpha : Option Bool
deriving DecidableEq

/-- `DsTexHeader::has_alpha`, src/ds_tex.rs lines 128-133. -/
def DsTexHeader.has_alpha : PixelFormat → Bool
  | .Rgba | .Dxt3 | .Dxt5 => true
  | _ => false

/-- Specification-detection heuristic at the top of `DsTexHeader::from_data`
(src/ds_tex.rs lines 155-158): `match data >> 14 & 0x3ffff { 0x3ffff => PRE, _ => POST }`. -/
def detectSpecification (data : Nat) : Specification :=
  if (data >>> 14) &&& 0x3ffff = 0x3ffff then PRE_CAVE_SPECIFICATION
  else POST_CAVE_SPECIFICATION

/-- `DsTexHeader::from_data`, src/ds_tex.rs lines 154-186. The `u8::try_from`
on the masked mipmap-count and flag fields cannot fail (both masks are below
256), so those two fields are bound directly. -/
def DsTexHeader.from_data (data : Nat) : Option DsTexHeader :=
  let specification := detectSpecification data
  match Platform.tryFrom ((data >>> specification.offset_platform) &&& specification.max_platform) with
  | none => none
  | some platform =>
    match PixelFormat.tryFrom ((data >>> specification.offset_pixel_format) &&& specification.max_pixel_format) with
    | none => none
    | some pixel_format =>
      match TextureType.tryFrom ((data >>> specification.offset_texture_type) &&& specification.max_texture_type) with
      | none => none
      | some texture_type =>
        some {
          specification := specification
          platform := platform
          pixel_format := pixel_format
          texture_type := texture_type
          mipmap_count := (data >>> specification.offset_mipmap_count) &&& specification.max_mipmap_count
          flag := (data >>> specification.offset_flag) &&& specification.max_flag
          fill := (data >>> specification.offset_fill) &&& specification.max_fill
          premultiply_alpha := some (DsTexHeader.has_alpha pixel_format) }

/-- `DsTexHeader::to_data`, src/ds_tex.rs lines 188-211: each field is shifted
into place and OR-combined in `u64` arithmetic (modelled by the explicit
`% 2 ^ 64`), then `try_into::<u32>()` fails when the result exceeds `u32`. -/
def DsTexHeader.to_data (h : DsTexHeader) : Option Nat :=
  let data :=
    (h.platform.toNat <<< h.specification.offset_platform
      ||| h.pixel_format.toNat <<< h.specification.offset_pixel_format
      ||| h.texture_type.toNat <<< h.specification.offset_texture_type
      ||| h.mipmap_count <<< h.specification.offset_mipmap_count
      ||| h.flag <<< h.specification.offset_flag
      ||| h.fill <<< h.specification.offset_fill) % 2 ^ 64
  if data < 2 ^ 32 then some data else none

/-- `Mipmap`, src/ds_tex.rs lines 214-221. -/
structure Mipmap where
  width : Nat
  height : Nat
  pitch : Nat
  data_size : Nat
  data : List Nat
deriving DecidableEq

/-- Pitch computation of `Mipmap::compress`, src/ds_tex.rs lines 281-310, in
wrapping `u16` arithmetic (`width`, and hence `pitch`, is `u16`; debug builds
would panic on the overflowing cases, release builds wrap). The `Dxt1` arm is
transcribed exactly as written in the source, `(width + 3 / 4) * 8`, where
`3 / 4` truncates to `0`. `Unknown` is the unsupported-format error arm. -/
def compress_pitch (pixel_format : PixelFormat) (width : Nat) : Option Nat :=
  match pixel_format with
  | .Dxt1 => some ((width + 3 / 4) * 8 % 65536)
  | .Dxt3 => some ((width + 3) % 65536 / 4 * 16 % 65536)
  | .Dxt5 => some ((width + 3) % 65536 / 4 * 16 % 65536)
  | .Rgba => some (width * 4 % 65536)
  | .Rgb => some (width * 3 % 65536)
  | .Unknown => none

/-- RGB-to-RGBA expansion of `Mipmap::decompress` (src/ds_tex.rs lines 257-262):
`chunks_exact(3)` with an appended `255` alpha byte per pixel; a trailing
remainder shorter than 3 bytes is ignored by `chunks_exact`. -/
def rgb_to_rgba : List Nat → List Nat
  | r :: g :: b :: rest => r :: g :: b :: 255 :: rgb_to_rgba rest
  | [] => []
  | [_] => []
  | [_, _] => []

/-- Outcomes of `Mipmap::decompress` other than success: `invalid_data` is the
returned `Err(InvalidData, "not supported format ktex file")`; `assert_panic`
models the `assert!(data.len() % 3 == 0, ..)` abort, which is a panic, not a
returned error. -/
inductive DecompressError
  | invalid_data
  | assert_panic
deriving DecidableEq

/-- Modelled from the spec: the BC1/BC2/BC3 arm of `Mipmap::decompress` runs the
external texpresso block decompressor into a `width * height * 4` RGBA buffer
and then applies the flip / `f32` unpremultiply transforms of
src/image_util.rs; the external decompressor and the `f32` arithmetic are
outside this development's pure fragment, so that arm is abstracted as a
buffer of the documented size. -/
def dxt_decompressed (width height : Nat) : List Nat :=
  List.replicate (width * height * 4) 0

/-- `Mipmap::decompress`, src/ds_tex.rs lines 224-271. The `Rgba` arm returns
the payload unchanged; the `Rgb` arm asserts divisibility by 3 (a panic on
violation) and expands each 3-byte pixel with an opaque alpha byte. -/
def Mipmap.decompress (m : Mipmap) (pixel_format : PixelFormat)
    (premultiply_alpha : Bool) : Except DecompressError (List Nat) :=
  match pixel_format with
  | .Dxt1 | .Dxt3 | .Dxt5 => .ok (dxt_decompressed m.width m.height)
  | .Rgba => .ok m.data
  | .Rgb =>
    if m.data.length % 3 = 0 then .ok (rgb_to_rgba m.data)
    else .error .assert_panic
  | .Unknown => .error .invalid_data

/-- Dimension sequence computed by the `for _ in 2..=max_count` loop of
`Mipmap::general_mipmaps` (src/ds_tex.rs lines 331-339): each level halves the
previous target via `max(1, dimension / 2)`, the pair is pushed, and the loop
breaks once a level is 1x1. The first argument is the remaining iteration
count (`2..=max_count` runs `max_count - 1` times). -/
def mipmap_dimensions : Nat → Nat → Nat → List (Nat × Nat)
  | 0, _, _ => []
  | iters + 1, mipmap_width, mipmap_height =>
    let w := max 1 (mipmap_width / 2)
    let h := max 1 (mipmap_height / 2)
    if w ≤ 1 ∧ h ≤ 1 then [(w, h)] else (w, h) :: mipmap_dimensions iters w h

/-- Dimension sequence of `Mipmap::general_mipmaps` for a base image of the
given size under the given maximum mipmap count. -/
def general_mipmap_dimensions (max_count width height : Nat) : List (Nat × Nat) :=
  mipmap_dimensions (max_count - 1) width height

/-- Dimension sequence of the mipmap list built by `DsTex::from_image`
(src/ds_tex.rs lines 495-515): level 0 is the base image itself; when mipmap
generation is enabled the `general_mipmaps` levels follow, bounded by the
active specification's `max_mipmap_count`. -/
def from_image_dimensions (spec : Specification) (width height : Nat)
    (generate_mipmaps : Bool) : List (Nat × Nat) :=
  (width, height) ::
    (if generate_mipmaps then general_mipmap_dimensions spec.max_mipmap_count width height
     else [])

/-- `DsTex`, src/ds_tex.rs lines 394-399; the raw byte buffer is a byte list. -/
structure DsTex where
  header : DsTexHeader
  mipmaps : List Mipmap
  bytes : Option (List Nat)
deriving DecidableEq

/-- Error outcomes of `DsTex::read`: `truncated_data` is a failed
`read_exact`/`read_uXX` (fewer bytes than a declared length requires),
`not_ds_tex` the magic-marker mismatch, `malformed_header` a
`DsTexHeader::from_data` failure. -/
inductive ReadError
  | truncated_data
  | not_ds_tex
  | malformed_header
deriving DecidableEq

/-- `read_bytes`, src/binary_data.rs lines 2-6: `read_exact` of `length` bytes
from the cursor, failing (without any out-of-bounds access) when fewer remain.
The `Cursor<Vec<u8>>` is modelled as the immutable byte buffer plus the
explicit read position; on success the new position is returned. -/
def read_bytes (buf : List Nat) (pos length : Nat) :
    Except ReadError (List Nat × Nat) :=
  if pos + length ≤ buf.length then
    .ok ((buf.drop pos).take length, pos + length)
  else .error .truncated_data

/-- Little-endian value of a byte list (first byte least significant). -/
def le_nat (bs : List Nat) : Nat :=
  bs.foldr (fun b acc => b + 256 * acc) 0

/-- The byteorder `read_u8`/`read_u16`/`read_u32` (LittleEndian) calls used by
`DsTex::read`: read `length` bytes and combine them little-endian. -/
def read_uint (buf : List Nat) (pos length : Nat) :
    Except ReadError (Nat × Nat) :=
  match read_bytes buf pos length with
  | .error e => .error e
  | .ok (bs, pos') => .ok (le_nat bs, pos')

/-- The metadata loop of `DsTex::read` (src/ds_tex.rs lines 421-434): one
10-byte record `{width:u16, height:u16, pitch:u16, data_size:u32}` per
declared mipmap, each pushed with an empty payload. -/
def read_metadatas (buf : List Nat) :
    Nat → Nat → Except ReadError (List Mipmap × Nat)
  | pos, 0 => .ok ([], pos)
  | pos, count + 1 =>
    match read_uint buf pos 2 with
    | .error e => .error e
    | .ok (width, pos1) =>
      match read_uint buf pos1 2 with
      | .error e => .error e
      | .ok (height, pos2) =>
        match read_uint buf pos2 2 with
        | .error e => .error e
        | .ok (pitch, pos3) =>
          match read_uint buf pos3 4 with
          | .error e => .error e
          | .ok (data_size, pos4) =>
            match read_metadatas buf pos4 count with
            | .error e => .error e
            | .ok (rest, pos5) =>
              .ok (⟨width, height, pitch, data_size, []⟩ :: rest, pos5)

/-- The payload loop of `DsTex::read` (src/ds_tex.rs lines 436-440): for each
metadata record in order, `read_exact` of its declared `data_size` bytes. -/
def read_payloads (buf : List Nat) :
    Nat → List Mipmap → Except ReadError (List Mipmap × Nat)
  | pos, [] => .ok ([], pos)
  | pos, m :: rest =>
    match read_bytes buf pos m.data_size with
    | .error e => .error e
    | .ok (data, pos1) =>
      match read_payloads buf pos1 rest with
      | .error e => .error e
      | .ok (ms, pos2) => .ok ({ m with data := data } :: ms, pos2)

/-- The ASCII bytes of the magic marker `"KTEX"`. -/
def MAGIC : List Nat := [75, 84, 69, 88]

/-- `DsTex::read` up to and including the payload loop (src/ds_tex.rs lines
412-440): magic marker, little-endian header word, metadata table, payloads.
A magic marker that is not valid UTF-8 makes the Rust `read_string` return a
conversion error; like a well-formed non-`KTEX` marker it is a non-truncation
failure, and both are modelled as `not_ds_tex`. -/
def read_core (bytes : List Nat) :
    Except ReadError (DsTexHeader × List Mipmap × Nat) :=
  match read_bytes bytes 0 4 with
  | .error e => .error e
  | .ok (magic, pos1) =>
    if magic ≠ MAGIC then .error .not_ds_tex
    else
      match read_uint bytes pos1 4 with
      | .error e => .error e
      | .ok (word, pos2) =>
        match DsTexHeader.from_data word with
        | none => .error .malformed_header
        | some header =>
          match read_metadatas bytes pos2 header.mipmap_count with
          | .error e => .error e
          | .ok (metas, pos3) =>
            match read_payloads bytes pos3 metas with
            | .error e => .error e
            | .ok (mipmaps, pos4) => .ok (header, mipmaps, pos4)

/-- `DsTex::read`, src/ds_tex.rs lines 412-451: after the payloads, when
exactly one byte remains (`get_ref().len() - position()`), it is read as the
definitive premultiply-alpha flag (`== 1`) overwriting the header's inferred
value. -/
def DsTex.read (bytes : List Nat) : Except ReadError DsTex :=
  match read_core bytes with
  | .error e => .error e
  | .ok (header, mipmaps, pos) =>
    if bytes.length - pos = 1 then
      match read_uint bytes pos 1 with
      | .error e => .error e
      | .ok (b, _) =>
        .ok ⟨{ header with premultiply_alpha := some (decide (b = 1)) }, mipmaps, some bytes⟩
    else
      .ok ⟨header, mipmaps, some bytes⟩

/-- Outcomes of `DsTex::to_image` other than success: `index_panic` models the
out-of-bounds panic of `&self.mipmaps[0]` on an empty mipmap list. -/
inductive ToImageError
  | index_panic
  | decompress_error (e : DecompressError)
deriving DecidableEq

/-- `DsTex::to_image`, src/ds_tex.rs lines 453-466: decompress mipmap level 0
(a panic when the list is empty) and return it with its dimensions. -/
def DsTex.to_image (tex : DsTex) : Except ToImageError (Nat × Nat × List Nat) :=
  match tex.mipmaps with
  | [] => .error .index_panic
  | mipmap :: _ =>
    match mipmap.decompress tex.header.pixel_format
        (tex.header.premultiply_alpha.getD true) with
    | .error e => .error (.decompress_error e)
    | .ok rgba_data => .ok (mipmap.width, mipmap.height, rgba_data)

deriving instance DecidableEq for Except

/-! Theorems. -/

theorem rgb_to_rgba_length : ∀ l : List Nat, (rgb_to_rgba l).length = l.length / 3 * 4
  | [] => rfl
  | [_] => by simp [rgb_to_rgba]
  | [_, _] => by simp [rgb_to_rgba]
  | _ :: _ :: _ :: rest => by
    have ih := rgb_to_rgba_length rest
    simp only [rgb_to_rgba, List.length_cons, ih]
    omega

theorem rgb_to_rgba_pixel : ∀ (l : List Nat) (i : Nat), 3 * i + 2 < l.length →
    ((rgb_to_rgba l).drop (4 * i)).take 4 = (l.drop (3 * i)).take 3 ++ [255]
  | r :: g :: b :: rest, 0, _ => by simp [rgb_to_rgba]
  | r :: g :: b :: rest, i + 1, h => by
    have ih := rgb_to_rgba_pixel rest i (by simp only [List.length_cons] at h; omega)
    have e4 : ∀ t : List Nat, (r :: g :: b :: 255 :: t).drop (4 * (i + 1)) = t.drop (4 * i) := by
      intro t
      rw [show 4 * (i + 1) = (4 * i + 3) + 1 by ring, List.drop_succ_cons,
        show 4 * i + 3 = (4 * i + 2) + 1 by ring, List.drop_succ_cons,
        show 4 * i + 2 = (4 * i + 1) + 1 by ring, List.drop_succ_cons, List.drop_succ_cons]
    have e3 : (r :: g :: b :: rest).drop (3 * (i + 1)) = rest.drop (3 * i) := by
      rw [show 3 * (i + 1) = (3 * i + 2) + 1 by ring, List.drop_succ_cons,
        show 3 * i + 2 = (3 * i + 1) + 1 by ring, List.drop_succ_cons, List.drop_succ_cons]
    simp only [rgb_to_rgba, e4, e3, ih]
  | [], _, h => by simp at h
  | [_], _, h => by simp at h
  | [_, _], _, h => by simp at h

theorem platform_tryFrom_eq {n : Nat} {p : Platform} (h : Platform.tryFrom n = some p) :
    p.toNat = n := by
  unfold Platform.tryFrom at h
  split_ifs at h <;>
    first
    | (rw [Option.some.injEq] at h; subst h; simp [Platform.toNat]; omega)
    | exact absurd h (by simp)

theorem pixelFormat_tryFrom_eq {n : Nat} {p : PixelFormat} (h : PixelFormat.tryFrom n = some p) :
    p.toNat = n := by
  unfold PixelFormat.tryFrom at h
  split_ifs at h <;>
    first
    | (rw [Option.some.injEq] at h; subst h; simp [PixelFormat.toNat]; omega)
    | exact absurd h (by simp)

theorem textureType_tryFrom_eq {n : Nat} {t : TextureType} (h : TextureType.tryFrom n = some t) :
    t.toNat = n := by
  unfold TextureType.tryFrom at h
  split_ifs at h <;>
    first
    | (rw [Option.some.injEq] at h; subst h; simp [TextureType.toNat]; omega)
    | exact absurd h (by simp)

theorem or_mul_two_pow_eq_add {a b k : Nat} (ha : a < 2 ^ k) :
    a ||| b * 2 ^ k = a + b * 2 ^ k := by
  rw [Nat.or_comm, Nat.mul_comm b (2 ^ k), ← Nat.mul_add_lt_is_or ha b]
  ring

theorem or_chain6 (a b c d e f k1 k2 k3 k4 k5 : Nat)
    (h1 : a < 2 ^ k1)
    (h2 : a + b * 2 ^ k1 < 2 ^ k2)
    (h3 : a + b * 2 ^ k1 + c * 2 ^ k2 < 2 ^ k3)
    (h4 : a + b * 2 ^ k1 + c * 2 ^ k2 + d * 2 ^ k3 < 2 ^ k4)
    (h5 : a + b * 2 ^ k1 + c * 2 ^ k2 + d * 2 ^ k3 + e * 2 ^ k4 < 2 ^ k5) :
    a ||| b * 2 ^ k1 ||| c * 2 ^ k2 ||| d * 2 ^ k3 ||| e * 2 ^ k4 ||| f * 2 ^ k5
      = a + b * 2 ^ k1 + c * 2 ^ k2 + d * 2 ^ k3 + e * 2 ^ k4 + f * 2 ^ k5 := by
  rw [or_mul_two_pow_eq_add h1, or_mul_two_pow_eq_add h2, or_mul_two_pow_eq_add h3,
    or_mul_two_pow_eq_add h4, or_mul_two_pow_eq_add h5]

theorem shift_mask_eq (data n w m : Nat) (hm : m = 2 ^ w - 1) :
    (data >>> n) &&& m = data / 2 ^ n % 2 ^ w := by
  rw [hm, Nat.and_pow_two_sub_one_eq_mod, Nat.shiftRight_eq_div_pow]

/-- C2: `DsTexHeader::from_data` selects the PRE (pre-caves) bit layout if and
only if bits 14 through 31 of the 32-bit header word are all set, and selects
the POST (post-caves) layout otherwise. -/
theorem c2_specification_detection (data : Nat) (hdata : data < 2 ^ 32) :
    (detectSpecification data = PRE_CAVE_SPECIFICATION ↔
      ∀ i, 14 ≤ i → i ≤ 31 → data.testBit i = true)
    ∧ PRE_CAVE_SPECIFICATION ≠ POST_CAVE_SPECIFICATION
    ∧ (¬ (∀ i, 14 ≤ i → i ≤ 31 → data.testBit i = true) →
        detectSpecification data = POST_CAVE_SPECIFICATION) := by
  have hne : PRE_CAVE_SPECIFICATION ≠ POST_CAVE_SPECIFICATION := by decide
  have key : ((data >>> 14) &&& 0x3ffff = 0x3ffff) ↔
      (∀ i, 14 ≤ i → i ≤ 31 → data.testBit i = true) := by
    rw [show (0x3ffff : Nat) = 2 ^ 18 - 1 by norm_num, Nat.and_pow_two_sub_one_eq_mod]
    constructor
    · intro h i h14 h31
      have hj : data.testBit i = (data >>> 14).testBit (i - 14) := by
        rw [Nat.testBit_shiftRight]
        congr 1
        omega
      have hbit := congrArg (fun t => t.testBit (i - 14)) h
      simp only [Nat.testBit_mod_two_pow, Nat.testBit_two_pow_sub_one] at hbit
      have hlt : i - 14 < 18 := by omega
      rw [hj]
      simpa [hlt] using hbit
    · intro h
      apply Nat.eq_of_testBit_eq
      intro j
      simp only [Nat.testBit_mod_two_pow, Nat.testBit_two_pow_sub_one]
      by_cases hj : j < 18
      · have hb := h (14 + j) (by omega) (by omega)
        rw [← Nat.testBit_shiftRight] at hb
        simp [hj, hb]
      · simp [hj]
  unfold detectSpecification
  by_cases hcond : (data >>> 14) &&& 0x3ffff = 0x3ffff
  · rw [if_pos hcond]
    exact ⟨⟨fun _ => key.mp hcond, fun _ => rfl⟩, hne, fun hno => absurd (key.mp hcond) hno⟩
  · rw [if_neg hcond]
    exact ⟨⟨fun h => absurd h.symm hne, fun hall => absurd (key.mpr hall) hcond⟩,
      hne, fun _ => rfl⟩

theorem c2_specification_detection_witness :
    detectSpecification 4294950912 = PRE_CAVE_SPECIFICATION
    ∧ Nat.testBit 4294950912 14 = true :=
  ⟨by decide,
   (c2_specification_detection 4294950912 (by norm_num)).1.mp (by decide) 14 (by decide)
     (by decide)⟩

/-- C3: whenever `DsTexHeader::from_data` decodes a 32-bit word (the platform,
pixel-format and texture-type fields map to known enumerants under the
detected layout), `DsTexHeader::to_data` re-encodes the decoded header to the
original word exactly, for words detected as PRE as well as POST. -/
theorem c3_header_roundtrip (data : Nat) (hdata : data < 2 ^ 32) (h : DsTexHeader)
    (hdec : DsTexHeader.from_data data = some h) : h.to_data = some data := by
  by_cases hcond : (data >>> 14) &&& 0x3ffff = 0x3ffff
  · have hspec : detectSpecification data = PRE_CAVE_SPECIFICATION := by
      simp [detectSpecification, hcond]
    simp only [DsTexHeader.from_data, hspec, PRE_CAVE_SPECIFICATION] at hdec
    cases hp : Platform.tryFrom ((data >>> 0) &&& 7) with
    | none => rw [hp] at hdec; exact absurd hdec (by simp)
    | some p =>
      rw [hp] at hdec
      cases hpf : PixelFormat.tryFrom ((data >>> 3) &&& 7) with
      | none => rw [hpf] at hdec; exact absurd hdec (by simp)
      | some pf =>
        rw [hpf] at hdec
        cases htt : TextureType.tryFrom ((data >>> 6) &&& 7) with
        | none => rw [htt] at hdec; exact absurd hdec (by simp)
        | some tt =>
          rw [htt] at hdec
          simp only [Option.some.injEq] at hdec
          subst hdec
          have hp' := platform_tryFrom_eq hp
          have hpf' := pixelFormat_tryFrom_eq hpf
          have htt' := textureType_tryFrom_eq htt
          simp only [DsTexHeader.to_data, PRE_CAVE_SPECIFICATION, hp', hpf', htt']
          rw [shift_mask_eq data 0 3 7 (by norm_num), shift_mask_eq data 3 3 7 (by norm_num),
            shift_mask_eq data 6 3 7 (by norm_num), shift_mask_eq data 9 4 15 (by norm_num),
            shift_mask_eq data 13 1 1 (by norm_num), shift_mask_eq data 14 18 262143 (by norm_num)]
          simp only [Nat.shiftLeft_eq, Nat.pow_zero, Nat.div_one, Nat.mul_one]
          rw [or_chain6 (data % 2 ^ 3) (data / 2 ^ 3 % 2 ^ 3) (data / 2 ^ 6 % 2 ^ 3)
            (data / 2 ^ 9 % 2 ^ 4) (data / 2 ^ 13 % 2 ^ 1) (data / 2 ^ 14 % 2 ^ 18)
            3 6 9 13 14 (by omega) (by omega) (by omega) (by omega) (by omega)]
          have hsum : data % 2 ^ 3 + data / 2 ^ 3 % 2 ^ 3 * 2 ^ 3 + data / 2 ^ 6 % 2 ^ 3 * 2 ^ 6
              + data / 2 ^ 9 % 2 ^ 4 * 2 ^ 9 + data / 2 ^ 13 % 2 ^ 1 * 2 ^ 13
              + data / 2 ^ 14 % 2 ^ 18 * 2 ^ 14 = data := by omega
          rw [hsum, Nat.mod_eq_of_lt (by omega : data < 2 ^ 64), if_pos hdata]
  · have hspec : detectSpecification data = POST_CAVE_SPECIFICATION := by
      simp [detectSpecification, hcond]
    simp only [DsTexHeader.from_data, hspec, POST_CAVE_SPECIFICATION] at hdec
    cases hp : Platform.tryFrom ((data >>> 0) &&& 15) with
    | none => rw [hp] at hdec; exact absurd hdec (by simp)
    | some p =>
      rw [hp] at hdec
      cases hpf : PixelFormat.tryFrom ((data >>> 4) &&& 31) with
      | none => rw [hpf] at hdec; exact absurd hdec (by simp)
      | some pf =>
        rw [hpf] at hdec
        cases htt : TextureType.tryFrom ((data >>> 9) &&& 15) with
        | none => rw [htt] at hdec; exact absurd hdec (by simp)
        | some tt =>
          rw [htt] at hdec
          simp only [Option.some.injEq] at hdec
          subst hdec
          have hp' := platform_tryFrom_eq hp
          have hpf' := pixelFormat_tryFrom_eq hpf
          have htt' := textureType_tryFrom_eq htt
          simp only [DsTexHeader.to_data, POST_CAVE_SPECIFICATION, hp', hpf', htt']
          rw [shift_mask_eq data 0 4 15 (by norm_num), shift_mask_eq data 4 5 31 (by norm_num),
            shift_mask_eq data 9 4 15 (by norm_num), shift_mask_eq data 13 5 31 (by norm_num),
            shift_mask_eq data 18 2 3 (by norm_num), shift_mask_eq data 20 12 4095 (by norm_num)]
          simp only [Nat.shiftLeft_eq, Nat.pow_zero, Nat.div_one, Nat.mul_one]
          rw [or_chain6 (data % 2 ^ 4) (data / 2 ^ 4 % 2 ^ 5) (data / 2 ^ 9 % 2 ^ 4)
            (data / 2 ^ 13 % 2 ^ 5) (data / 2 ^ 18 % 2 ^ 2) (data / 2 ^ 20 % 2 ^ 12)
            4 9 13 18 20 (by omega) (by omega) (by omega) (by omega) (by omega)]
          have hsum : data % 2 ^ 4 + data / 2 ^ 4 % 2 ^ 5 * 2 ^ 4 + data / 2 ^ 9 % 2 ^ 4 * 2 ^ 9
              + data / 2 ^ 13 % 2 ^ 5 * 2 ^ 13 + data / 2 ^ 18 % 2 ^ 2 * 2 ^ 18
              + data / 2 ^ 20 % 2 ^ 12 * 2 ^ 20 = data := by omega
          rw [hsum, Nat.mod_eq_of_lt (by omega : data < 2 ^ 64), if_pos hdata]

theorem c3_header_roundtrip_witness :
    ((DsTexHeader.from_data 8192).bind DsTexHeader.to_data = some 8192)
    ∧ ((DsTexHeader.from_data 4294961744).bind DsTexHeader.to_data = some 4294961744) := by
  constructor
  · cases hh : DsTexHeader.from_data 8192 with
    | none => exact absurd hh (by decide)
    | some hdr =>
      rw [Option.bind]
      exact c3_header_roundtrip 8192 (by norm_num) hdr hh
  · cases hh : DsTexHeader.from_data 4294961744 with
    | none => exact absurd hh (by decide)
    | some hdr =>
      rw [Option.bind]
      exact c3_header_roundtrip 4294961744 (by norm_num) hdr hh

/-- C1: the claim says `Mipmap::compress` computes pitch `ceil(width/4) * 8`
for BC1 and `ceil(width/4) * 16` for BC2/BC3. The BC2/BC3 arms do (here at
width 8: 32), but the BC1 arm is the precedence slip `(width + 3 / 4) * 8`
= `width * 8`: at width 8 the code yields 64 where `ceil(8/4) * 8 = 16`. -/
theorem c1_dxt1_pitch_precedence :
    compress_pitch .Dxt1 8 = some 64
    ∧ (8 + 3) / 4 * 8 = 16
    ∧ compress_pitch .Dxt3 8 = some 32
    ∧ compress_pitch .Dxt5 8 = some 32 := by decide

/-- C9: the pitch of `Mipmap::compress` is computed in 16-bit arithmetic, so
inside the allowed width range it overflows instead of producing the
mathematically correct bytes-per-row: RGBA at width 16384 wraps 65536 to 0,
RGB at width 21846 wraps 65538 to 2, and BC2 at width 65533 wraps
`width + 3` to 0 where the true pitch would be 262144. -/
theorem c9_pitch_u16_overflow :
    compress_pitch .Rgba 16384 = some 0 ∧ 16384 * 4 = 65536
    ∧ compress_pitch .Rgb 21846 = some 2 ∧ 21846 * 3 = 65538
    ∧ compress_pitch .Dxt3 65533 = some 0 ∧ (65533 + 3) / 4 * 16 = 262144 := by decide

/-- C5 counterexample: on the length-1 RGB payload `[0]` the claim says
`Mipmap::decompress` rejects "with an error"; the code instead aborts through
`assert!` — the result is the modelled panic outcome, not the function's
returned error (`invalid_data` is the only error value `decompress` itself
returns). -/
theorem c5_counterexample :
    (Mipmap.mk 1 1 3 1 [0]).decompress .Rgb true = .error .assert_panic
    ∧ (Mipmap.mk 1 1 3 1 [0]).decompress .Rgb true ≠ .error .invalid_data := by decide

/-- C5 (amended): for `Mipmap::decompress` with pixel format RGB, a payload of
length divisible by 3 expands to a buffer 4/3 its length in which every
3-byte pixel `(r,g,b)` becomes `(r,g,b,255)`; a payload of non-divisible
length is rejected by the `assert!` panic, not by a returned error. -/
theorem c5_rgb_decompress (m : Mipmap) (premultiply_alpha : Bool) :
    (m.data.length % 3 = 0 →
      m.decompress .Rgb premultiply_alpha = .ok (rgb_to_rgba m.data)
      ∧ (rgb_to_rgba m.data).length * 3 = m.data.length * 4
      ∧ ∀ i, 3 * i + 2 < m.data.length →
          ((rgb_to_rgba m.data).drop (4 * i)).take 4
            = (m.data.drop (3 * i)).take 3 ++ [255])
    ∧ (m.data.length % 3 ≠ 0 →
      m.decompress .Rgb premultiply_alpha = .error .assert_panic) := by
  constructor
  · intro h
    refine ⟨by simp [Mipmap.decompress, h], ?_, fun i hi => rgb_to_rgba_pixel m.data i hi⟩
    have := rgb_to_rgba_length m.data
    omega
  · intro h
    simp [Mipmap.decompress, h]

theorem c5_rgb_decompress_witness :
    (Mipmap.mk 1 1 3 3 [10, 20, 30]).decompress .Rgb true = .ok [10, 20, 30, 255]
    ∧ (Mipmap.mk 1 1 3 1 [0]).decompress .Rgb true = .error .assert_panic :=
  ⟨((c5_rgb_decompress (Mipmap.mk 1 1 3 3 [10, 20, 30]) true).1 (by decide)).1,
   (c5_rgb_decompress (Mipmap.mk 1 1 3 1 [0]) true).2 (by decide)⟩

/-- C7: encoding a 256x256 base image with mipmap generation enabled yields
exactly 9 levels with dimensions 256,128,64,32,16,8,4,2,1 (each squared),
halving via `max(1, dimension / 2)` and stopping at 1x1, within the active
specification's maximum mipmap count (31 for POST, 15 for PRE). -/
theorem c7_mipmap_chain_256 :
    from_image_dimensions POST_CAVE_SPECIFICATION 256 256 true
      = [(256, 256), (128, 128), (64, 64), (32, 32), (16, 16), (8, 8), (4, 4), (2, 2), (1, 1)]
    ∧ (from_image_dimensions POST_CAVE_SPECIFICATION 256 256 true).length = 9
    ∧ 9 ≤ POST_CAVE_SPECIFICATION.max_mipmap_count
    ∧ from_image_dimensions PRE_CAVE_SPECIFICATION 256 256 true
      = [(256, 256), (128, 128), (64, 64), (32, 32), (16, 16), (8, 8), (4, 4), (2, 2), (1, 1)]
    ∧ 9 ≤ PRE_CAVE_SPECIFICATION.max_mipmap_count := by decide

/-- C10: `DsTex::to_image` decompresses mipmap level 0 whenever the mipmap
list is non-empty, and on an empty mipmap list the unconditional indexing
`&self.mipmaps[0]` panics rather than returning an error. -/
theorem c10_to_image_level0 (tex : DsTex) :
    (tex.mipmaps = [] → tex.to_image = .error .index_panic)
    ∧ ∀ m rest, tex.mipmaps = m :: rest →
        tex.to_image = Except.mapError ToImageError.decompress_error
          ((m.decompress tex.header.pixel_format
              (tex.header.premultiply_alpha.getD true)).map
            (fun d => (m.width, m.height, d))) := by
  constructor
  · intro h; simp [DsTex.to_image, h]
  · intro m rest h
    simp only [DsTex.to_image, h]
    cases m.decompress tex.header.pixel_format (tex.header.premultiply_alpha.getD true) <;>
      simp [Except.mapError, Except.map]

theorem read_bytes_ok_intro {buf : List Nat} {pos len : Nat} (h : pos + len ≤ buf.length) :
    read_bytes buf pos len = .ok ((buf.drop pos).take len, pos + len) := by
  unfold read_bytes
  rw [if_pos h]

theorem read_bytes_ok_elim {buf : List Nat} {pos len : Nat} {bs : List Nat} {pos' : Nat}
    (h : read_bytes buf pos len = .ok (bs, pos')) :
    pos + len ≤ buf.length ∧ bs = (buf.drop pos).take len ∧ pos' = pos + len := by
  unfold read_bytes at h
  split at h
  next hc => cases h; exact ⟨hc, rfl, rfl⟩
  next => cases h

theorem read_uint_ok_intro {buf : List Nat} {pos len : Nat} (h : pos + len ≤ buf.length) :
    read_uint buf pos len = .ok (le_nat ((buf.drop pos).take len), pos + len) := by
  unfold read_uint
  rw [read_bytes_ok_intro h]

theorem read_uint_ok_elim {buf : List Nat} {pos len v pos' : Nat}
    (h : read_uint buf pos len = .ok (v, pos')) :
    pos + len ≤ buf.length ∧ v = le_nat ((buf.drop pos).take len) ∧ pos' = pos + len := by
  unfold read_uint at h
  cases hb : read_bytes buf pos len with
  | error e => rw [hb] at h; cases h
  | ok p =>
    obtain ⟨bs, q⟩ := p
    rw [hb] at h
    obtain ⟨h1, h2, h3⟩ := read_bytes_ok_elim hb
    cases h
    exact ⟨h1, by rw [h2], h3⟩

theorem read_bytes_take_ok {buf : List Nat} {pos len : Nat} (n : Nat) {bs : List Nat}
    {pos' : Nat} (h : read_bytes buf pos len = .ok (bs, pos')) (hn : pos' ≤ n) :
    read_bytes (buf.take n) pos len = .ok (bs, pos') := by
  obtain ⟨h1, h2, h3⟩ := read_bytes_ok_elim h
  subst h2
  subst h3
  unfold read_bytes
  rw [if_pos (by simp only [List.length_take]; omega)]
  have hl : ((buf.take n).drop pos).take len = (buf.drop pos).take len := by
    rw [List.drop_take, List.take_take]
    congr 1
    omega
  rw [hl]

theorem read_bytes_take_err (buf : List Nat) (pos len n : Nat)
    (h1 : n < pos + len) (h2 : n ≤ buf.length) :
    read_bytes (buf.take n) pos len = .error .truncated_data := by
  unfold read_bytes
  rw [if_neg (by simp only [List.length_take]; omega)]

theorem read_uint_take_ok {buf : List Nat} {pos len : Nat} (n : Nat) {v pos' : Nat}
    (h : read_uint buf pos len = .ok (v, pos')) (hn : pos' ≤ n) :
    read_uint (buf.take n) pos len = .ok (v, pos') := by
  unfold read_uint at h ⊢
  cases hb : read_bytes buf pos len with
  | error e => rw [hb] at h; cases h
  | ok p =>
    obtain ⟨bs, q⟩ := p
    rw [hb] at h
    cases h
    rw [read_bytes_take_ok n hb hn]

theorem read_uint_take_err (buf : List Nat) (pos len n : Nat)
    (h1 : n < pos + len) (h2 : n ≤ buf.length) :
    read_uint (buf.take n) pos len = .error .truncated_data := by
  unfold read_uint
  rw [read_bytes_take_err buf pos len n h1 h2]

theorem read_metadatas_pos : ∀ (count : Nat) {buf : List Nat} {pos : Nat} {ms : List Mipmap}
    {pos' : Nat}, read_metadatas buf pos count = .ok (ms, pos') →
    pos ≤ pos' ∧ (pos ≤ buf.length → pos' ≤ buf.length)
  | 0, buf, pos, ms, pos', h => by
    cases h
    exact ⟨Nat.le_refl _, fun hp => hp⟩
  | count + 1, buf, pos, ms, pos', h => by
    simp only [read_metadatas] at h
    split at h
    next => cases h
    next w q1 h1 =>
      split at h
      next => cases h
      next ht q2 h2 =>
        split at h
        next => cases h
        next pt q3 h3 =>
          split at h
          next => cases h
          next ds q4 h4 =>
            split at h
            next => cases h
            next rest q5 h5 =>
              cases h
              obtain ⟨e1, _, e1'⟩ := read_uint_ok_elim h1
              obtain ⟨e2, _, e2'⟩ := read_uint_ok_elim h2
              obtain ⟨e3, _, e3'⟩ := read_uint_ok_elim h3
              obtain ⟨e4, _, e4'⟩ := read_uint_ok_elim h4
              obtain ⟨i1, i2⟩ := read_metadatas_pos count h5
              exact ⟨by omega, fun _ => i2 (by omega)⟩

theorem read_metadatas_take_ok : ∀ (count : Nat) {buf : List Nat} {pos : Nat}
    {ms : List Mipmap} {pos' : Nat} (n : Nat),
    read_metadatas buf pos count = .ok (ms, pos') → pos' ≤ n →
    read_metadatas (buf.take n) pos count = .ok (ms, pos')
  | 0, buf, pos, ms, pos', n, h, _ => by
    cases h
    simp [read_metadatas]
  | count + 1, buf, pos, ms, pos', n, h, hn => by
    simp only [read_metadatas] at h ⊢
    split at h
    next => cases h
    next w q1 h1 =>
      split at h
      next => cases h
      next ht q2 h2 =>
        split at h
        next => cases h
        next pt q3 h3 =>
          split at h
          next => cases h
          next ds q4 h4 =>
            split at h
            next => cases h
            next rest q5 h5 =>
              cases h
              obtain ⟨e1, _, e1'⟩ := read_uint_ok_elim h1
              obtain ⟨e2, _, e2'⟩ := read_uint_ok_elim h2
              obtain ⟨e3, _, e3'⟩ := read_uint_ok_elim h3
              obtain ⟨e4, _, e4'⟩ := read_uint_ok_elim h4
              obtain ⟨i1, i2⟩ := read_metadatas_pos count h5
              simp only [read_uint_take_ok n h1 (by omega), read_uint_take_ok n h2 (by omega),
                read_uint_take_ok n h3 (by omega), read_uint_take_ok n h4 (by omega),
                read_metadatas_take_ok count n h5 (by omega)]

theorem read_metadatas_take_err : ∀ (count : Nat) {buf : List Nat} {pos : Nat}
    {ms : List Mipmap} {pos' : Nat} (n : Nat),
    read_metadatas buf pos count = .ok (ms, pos') → pos ≤ n → n < pos' →
    n ≤ buf.length → read_metadatas (buf.take n) pos count = .error .truncated_data
  | 0, buf, pos, ms, pos', n, h, hn1, hn2, _ => by
    cases h
    exact absurd hn2 (by omega)
  | count + 1, buf, pos, ms, pos', n, h, hn1, hn2, hnl => by
    simp only [read_metadatas] at h ⊢
    split at h
    next => cases h
    next w q1 h1 =>
      split at h
      next => cases h
      next ht q2 h2 =>
        split at h
        next => cases h
        next pt q3 h3 =>
          split at h
          next => cases h
          next ds q4 h4 =>
            split at h
            next => cases h
            next rest q5 h5 =>
              cases h
              obtain ⟨e1, _, e1'⟩ := read_uint_ok_elim h1
              obtain ⟨e2, _, e2'⟩ := read_uint_ok_elim h2
              obtain ⟨e3, _, e3'⟩ := read_uint_ok_elim h3
              obtain ⟨e4, _, e4'⟩ := read_uint_ok_elim h4
              by_cases c1 : n < pos + 2
              · simp only [read_uint_take_err buf pos 2 n (by omega) hnl]
              · by_cases c2 : n < pos + 4
                · simp only [read_uint_take_ok n h1 (by omega),
                    read_uint_take_err buf q1 2 n (by omega) hnl]
                · by_cases c3 : n < pos + 6
                  · simp only [read_uint_take_ok n h1 (by omega),
                      read_uint_take_ok n h2 (by omega),
                      read_uint_take_err buf q2 2 n (by omega) hnl]
                  · by_cases c4 : n < pos + 10
                    · simp only [read_uint_take_ok n h1 (by omega),
                        read_uint_take_ok n h2 (by omega), read_uint_take_ok n h3 (by omega),
                        read_uint_take_err buf q3 4 n (by omega) hnl]
                    · simp only [read_uint_take_ok n h1 (by omega),
                        read_uint_take_ok n h2 (by omega), read_uint_take_ok n h3 (by omega),
                        read_uint_take_ok n h4 (by omega),
                        read_metadatas_take_err count n h5 (by omega) (by omega) hnl]

theorem read_payloads_pos : ∀ (metas : List Mipmap) {buf : List Nat} {pos : Nat}
    {ms : List Mipmap} {pos' : Nat}, read_payloads buf pos metas = .ok (ms, pos') →
    pos ≤ pos' ∧ (pos ≤ buf.length → pos' ≤ buf.length)
  | [], buf, pos, ms, pos', h => by
    cases h
    exact ⟨Nat.le_refl _, fun hp => hp⟩
  | m :: rest, buf, pos, ms, pos', h => by
    simp only [read_payloads] at h
    split at h
    next => cases h
    next data q1 h1 =>
      split at h
      next => cases h
      next ms2 q2 h2 =>
        cases h
        obtain ⟨e1, _, e1'⟩ := read_bytes_ok_elim h1
        obtain ⟨i1, i2⟩ := read_payloads_pos rest h2
        exact ⟨by omega, fun _ => i2 (by omega)⟩

theorem read_payloads_take_ok : ∀ (metas : List Mipmap) {buf : List Nat} {pos : Nat}
    {ms : List Mipmap} {pos' : Nat} (n : Nat), read_payloads buf pos metas = .ok (ms, pos') →
    pos' ≤ n → read_payloads (buf.take n) pos metas = .ok (ms, pos')
  | [], buf, pos, ms, pos', n, h, _ => by
    cases h
    simp [read_payloads]
  | m :: rest, buf, pos, ms, pos', n, h, hn => by
    simp only [read_payloads] at h ⊢
    split at h
    next => cases h
    next data q1 h1 =>
      split at h
      next => cases h
      next ms2 q2 h2 =>
        cases h
        obtain ⟨i1, i2⟩ := read_payloads_pos rest h2
        simp only [read_bytes_take_ok n h1 (by omega), read_payloads_take_ok rest n h2 (by omega)]

theorem read_payloads_take_err : ∀ (metas : List Mipmap) {buf : List Nat} {pos : Nat}
    {ms : List Mipmap} {pos' : Nat} (n : Nat), read_payloads buf pos metas = .ok (ms, pos') →
    pos ≤ n → n < pos' → n ≤ buf.length →
    read_payloads (buf.take n) pos metas = .error .truncated_data
  | [], buf, pos, ms, pos', n, h, hn1, hn2, _ => by
    cases h
    exact absurd hn2 (by omega)
  | m :: rest, buf, pos, ms, pos', n, h, hn1, hn2, hnl => by
    simp only [read_payloads] at h ⊢
    split at h
    next => cases h
    next data q1 h1 =>
      split at h
      next => cases h
      next ms2 q2 h2 =>
        cases h
        obtain ⟨e1, _, e1'⟩ := read_bytes_ok_elim h1
        by_cases c1 : n < pos + m.data_size
        · simp only [read_bytes_take_err buf pos m.data_size n (by omega) hnl]
        · simp only [read_bytes_take_ok n h1 (by omega),
            read_payloads_take_err rest n h2 (by omega) (by omega) hnl]

theorem read_core_ok_elim {bytes : List Nat} {hdr : DsTexHeader} {ms : List Mipmap} {pos : Nat}
    (h : read_core bytes = .ok (hdr, ms, pos)) :
    ∃ word metas pos3,
      read_bytes bytes 0 4 = .ok (MAGIC, 4)
      ∧ read_uint bytes 4 4 = .ok (word, 8)
      ∧ DsTexHeader.from_data word = some hdr
      ∧ read_metadatas bytes 8 hdr.mipmap_count = .ok (metas, pos3)
      ∧ read_payloads bytes pos3 metas = .ok (ms, pos)
      ∧ 8 ≤ bytes.length ∧ 8 ≤ pos3 ∧ pos3 ≤ pos ∧ pos ≤ bytes.length := by
  unfold read_core at h
  split at h
  next => cases h
  next magic q1 h1 =>
    split at h
    next => cases h
    next hm =>
      obtain ⟨e1, emagic, e1'⟩ := read_bytes_ok_elim h1
      have hq1 : q1 = 4 := by omega
      split at h
      next => cases h
      next word q2 h2 =>
        obtain ⟨e2, _, e2'⟩ := read_uint_ok_elim h2
        have hq2 : q2 = 8 := by omega
        split at h
        next => cases h
        next hd h3 =>
          split at h
          next => cases h
          next metas q4 h4 =>
            split at h
            next => cases h
            next mps q5 h5 =>
              cases h
              obtain ⟨i1, i2⟩ := read_metadatas_pos _ h4
              obtain ⟨j1, j2⟩ := read_payloads_pos _ h5
              subst hq1
              subst hq2
              refine ⟨word, metas, q4, ?_, h2, h3, h4, h5, by omega, by omega, j1,
                j2 (i2 (by omega))⟩
              rw [h1, not_not.mp hm]

theorem from_data_premultiply {d : Nat} {h : DsTexHeader}
    (hd : DsTexHeader.from_data d = some h) :
    h.premultiply_alpha = some (DsTexHeader.has_alpha h.pixel_format) := by
  simp only [DsTexHeader.from_data] at hd
  split at hd
  · cases hd
  · split at hd
    · cases hd
    · split at hd
      · cases hd
      · simp only [Option.some.injEq] at hd
        subst hd
        rfl

theorem read_core_take_err {bytes : List Nat} {header : DsTexHeader} {mipmaps : List Mipmap}
    {pos : Nat} (h : read_core bytes = .ok (header, mipmaps, pos)) {n : Nat} (hn : n < pos) :
    read_core (bytes.take n) = .error .truncated_data := by
  obtain ⟨word, metas, pos3, hmag, hword, hfd, hmet, hpay, h8, h8p3, hp3p, hplen⟩ :=
    read_core_ok_elim h
  have hlen : n ≤ bytes.length := by omega
  unfold read_core
  by_cases c1 : n < 4
  · simp only [read_bytes_take_err bytes 0 4 n (by omega) hlen]
  · simp only [read_bytes_take_ok n hmag (by omega), ne_eq, not_true_eq_false,
      if_false, ite_false]
    by_cases c2 : n < 8
    · simp only [read_uint_take_err bytes 4 4 n (by omega) hlen]
    · simp only [read_uint_take_ok n hword (by omega), hfd]
      by_cases c3 : n < pos3
      · simp only [read_metadatas_take_err header.mipmap_count n hmet (by omega) (by omega) hlen]
      · simp only [read_metadatas_take_ok header.mipmap_count n hmet (by omega),
          read_payloads_take_err metas n hpay (by omega) (by omega) hlen]

/-- C6: after `DsTex::read` has consumed the header, metadata table and all
declared payloads, the decoded header's `premultiply_alpha` is the value
inferred during header decode (whether the pixel format has an alpha
channel); when exactly one byte remains in the buffer it is re-read and
overwrites that inference with `byte == 1`, and for every other remaining
length the inferred value is kept. -/
theorem c6_trailing_premultiply (bytes : List Nat) (header : DsTexHeader)
    (mipmaps : List Mipmap) (pos : Nat)
    (h : read_core bytes = .ok (header, mipmaps, pos)) :
    header.premultiply_alpha = some (DsTexHeader.has_alpha header.pixel_format)
    ∧ (bytes.length - pos = 1 →
        DsTex.read bytes = .ok
          ⟨{ header with
              premultiply_alpha := some (decide (le_nat ((bytes.drop pos).take 1) = 1)) },
            mipmaps, some bytes⟩)
    ∧ (bytes.length - pos ≠ 1 →
        DsTex.read bytes = .ok ⟨header, mipmaps, some bytes⟩) := by
  obtain ⟨word, metas, pos3, hmag, hword, hfd, hmet, hpay, h8, h8p3, hp3p, hplen⟩ :=
    read_core_ok_elim h
  refine ⟨from_data_premultiply hfd, ?_, ?_⟩
  · intro hrem
    simp only [DsTex.read, h]
    rw [if_pos hrem, read_uint_ok_intro (by omega)]
  · intro hrem
    simp only [DsTex.read, h]
    rw [if_neg hrem]

theorem c6_trailing_premultiply_witness :
    DsTex.read [75, 84, 69, 88, 0, 0, 0, 0, 1]
      = .ok ⟨⟨0, POST_CAVE_SPECIFICATION, .Default, .Dxt1, .OneD, 0, 0, some true⟩, [],
          some [75, 84, 69, 88, 0, 0, 0, 0, 1]⟩ := by
  have h : read_core [75, 84, 69, 88, 0, 0, 0, 0, 1]
      = .ok (⟨0, POST_CAVE_SPECIFICATION, .Default, .Dxt1, .OneD, 0, 0, some false⟩, [], 8) := by
    decide
  have h2 := (c6_trailing_premultiply [75, 84, 69, 88, 0, 0, 0, 0, 1]
    ⟨0, POST_CAVE_SPECIFICATION, .Default, .Dxt1, .OneD, 0, 0, some false⟩ [] 8 h).2.1
    (by decide)
  exact h2.trans (by decide)

/-- C8: for every byte buffer cut off before all the bytes required by a
declared length (magic, header word, a metadata record, or a payload of its
declared `data_size`) are available, `DsTex::read` returns the truncated-data
error. The cut buffers are exactly the proper prefixes, below the consumed
position, of buffers whose structural parse succeeds; in this embedding every
read is bounds-guarded, so no panic or out-of-bounds access exists. -/
theorem c8_truncated_read (bytes : List Nat) (header : DsTexHeader) (mipmaps : List Mipmap)
    (pos : Nat) (h : read_core bytes = .ok (header, mipmaps, pos)) (n : Nat) (hn : n < pos) :
    DsTex.read (bytes.take n) = .error .truncated_data := by
  unfold DsTex.read
  rw [read_core_take_err h hn]

theorem c8_truncated_read_witness :
    DsTex.read ([75, 84, 69, 88, 0, 32, 0, 0, 1, 0, 1, 0, 4, 0, 4, 0, 0, 0,
        9, 9, 9, 9].take 20) = .error .truncated_data :=
  c8_truncated_read [75, 84, 69, 88, 0, 32, 0, 0, 1, 0, 1, 0, 4, 0, 4, 0, 0, 0, 9, 9, 9, 9]
    ⟨1, POST_CAVE_SPECIFICATION, .Default, .Dxt1, .OneD, 0, 0, some false⟩
    [⟨1, 1, 4, 4, [9, 9, 9, 9]⟩] 22 (by decide) 20 (by decide)

theorem c10_to_image_witness :
    DsTex.to_image ⟨⟨0, POST_CAVE_SPECIFICATION, .Default, .Rgba, .TwoD, 3, 4095, some false⟩,
        [], none⟩ = .error .index_panic
    ∧ DsTex.to_image ⟨⟨1, POST_CAVE_SPECIFICATION, .Default, .Rgba, .TwoD, 3, 4095, some false⟩,
        [⟨1, 1, 4, 4, [1, 2, 3, 4]⟩], none⟩ = .ok (1, 1, [1, 2, 3, 4]) := by
  constructor
  · exact (c10_to_image_level0 _).1 rfl
  · have h := (c10_to_image_level0
      ⟨⟨1, POST_CAVE_SPECIFICATION, .Default, .Rgba, .TwoD, 3, 4095, some false⟩,
        [⟨1, 1, 4, 4, [1, 2, 3, 4]⟩], none⟩).2 ⟨1, 1, 4, 4, [1, 2, 3, 4]⟩ [] rfl
    simpa [Mipmap.decompress, Except.map, Except.mapError] using h

end KTex
